import Mathlib

/-!
Verification development for the multi-provider ETF data aggregation layer
(`src/lib/api/provider-factory.ts`, `src/lib/api/base-provider.ts` and the
five provider implementations).

The TypeScript classes are shallowly embedded as Lean data and functions:

* `ProviderName`, `Capability`, `capabilityMatrix` — the literal union type
  and the static capability table of `provider-factory.ts`.
* `ProviderResponse` — the generic result envelope of `types/etf.ts`
  (`data` becomes `Option α`: `null`/`{}` placeholders are `none`).
* `FactoryState` — the mutable fields of `ETFProviderFactory`
  (`providers`, `providerPriority`, `healthStatus`); the registry is a
  boolean membership map, the per-name provider objects being determined
  by the name.
* `runFallback` / `executeWithFallback` — the fallback loop.  A provider
  call is abstracted as `call : ProviderName → CallOutcome α`: the closure
  `(provider) => provider.getQuote(symbol)` applied to the registry entry
  either throws (`.threw e`, with `e` the string rendering of the thrown
  value) or resolves to a response (`.returned r`).  The loop in the
  source pushes to an `errors` accumulator; the embedding builds the same
  list by consing in front of the recursive call, which yields the same
  list in the same order.  `Date.now()` is passed in as `now`.
* Provider methods needed by the claims are embedded per provider, with a
  network oracle (`FetchOutcome`) standing for the outcome of each
  `makeRequest` and a `netCalls` counter recording how many network
  requests were issued.  JS numeric strings that the source parses with
  `parseFloat`/`parseInt`/`Date` are abstracted as already-parsed numeric
  payload fields; no claim depends on those values.
-/

namespace ETFDash

/-- The `ProviderName` union type of `provider-factory.ts`. -/
inductive ProviderName where
  | polygon
  | finnhub
  | eodhd
  | fmp
  | alphaVantage
deriving DecidableEq, Repr

/-- The literal string each `ProviderName` denotes (the registry key used in
the error accumulator template `\x7bproviderName\x7d: ...`). -/
def ProviderName.key : ProviderName → String
  | .polygon => "polygon"
  | .finnhub => "finnhub"
  | .eodhd => "eodhd"
  | .fmp => "fmp"
  | .alphaVantage => "alpha-vantage"

/-- The eight capability keys of `ProviderCapabilities`. -/
inductive Capability where
  | quote
  | metadata
  | holdings
  | sectorAllocation
  | countryAllocation
  | performance
  | historicalData
  | search
deriving DecidableEq, Repr

/-- The static capability table of `ETFProviderFactory.getProviderCapabilities`. -/
def capabilityMatrix : ProviderName → Capability → Bool
  | .polygon, c =>
    match c with
    | .quote => true
    | .metadata => true
    | .holdings => false
    | .sectorAllocation => false
    | .countryAllocation => false
    | .performance => false
    | .historicalData => true
    | .search => true
  | .finnhub, c =>
    match c with
    | .quote => true
    | .metadata => true
    | .holdings => true
    | .sectorAllocation => true
    | .countryAllocation => true
    | .performance => false
    | .historicalData => true
    | .search => true
  | .eodhd, c =>
    match c with
    | .quote => true
    | .metadata => true
    | .holdings => true
    | .sectorAllocation => true
    | .countryAllocation => true
    | .performance => false
    | .historicalData => true
    | .search => true
  | .fmp, c =>
    match c with
    | .quote => true
    | .metadata => true
    | .holdings => true
    | .sectorAllocation => true
    | .countryAllocation => true
    | .performance => false
    | .historicalData => true
    | .search => true
  | .alphaVantage, c =>
    match c with
    | .quote => true
    | .metadata => true
    | .holdings => false
    | .sectorAllocation => false
    | .countryAllocation => false
    | .performance => false
    | .historicalData => true
    | .search => true

/-- The `ProviderResponse<T>` envelope of `types/etf.ts`.  `data : T` becomes
`Option α` — `none` models the `null as T` / `\x7b\x7d as T` placeholders of
failure responses, `some` a populated payload; `error?: string` becomes
`Option String`. -/
structure ProviderResponse (α : Type) where
  data : Option α
  provider : String
  timestamp : Nat
  success : Bool
  error : Option String
deriving DecidableEq, Repr

/-- Rendering of `result.error` inside the template literal
`\x7bproviderName\x7d: \x7bresult.error\x7d`: JS renders `undefined` as
the string `"undefined"`. -/
def optStr : Option String → String
  | some s => s
  | none => "undefined"

/-- The outcome of awaiting one provider-method call inside the fallback
loop: the promise either rejects (`.threw e`, `e` being the string rendering
of the thrown value as interpolated by `\x7berror\x7d`) or resolves to a
response. -/
inductive CallOutcome (α : Type) where
  | threw (e : String)
  | returned (r : ProviderResponse α)
deriving DecidableEq, Repr

/-- The mutable fields of an `ETFProviderFactory` instance:
`providers` (registry membership), `providerPriority`, `healthStatus`.
`healthStatus p` for an unregistered `p` models the falsy `undefined` that
`Map.get` yields for a missing entry (i.e. `false`). -/
structure FactoryState where
  providers : ProviderName → Bool
  providerPriority : List ProviderName
  healthStatus : ProviderName → Bool

/-- The candidate filter of the fallback loop (lines 199–207 of
`provider-factory.ts`): the two consecutive `continue` guards
(`!provider || !this.healthStatus.get(providerName)` and then
`!capabilities[capability]`) merged into one conjunction. -/
def eligible (reg h : ProviderName → Bool) (cap : Capability) (p : ProviderName) : Bool :=
  reg p && h p && capabilityMatrix p cap

/-- What one run of the `for` loop of `executeWithFallback` produces:
the first successful response (if any), the final health map, the error
accumulator, and the trace of providers actually invoked (in order). -/
structure FallbackOutcome (α : Type) where
  firstSuccess : Option (ProviderResponse α)
  healthStatus : ProviderName → Bool
  errors : List String
  trace : List ProviderName

/-- The `for (const providerName of this.providerPriority)` loop of
`ETFProviderFactory.executeWithFallback` (lines 198–220), recursing on the
remaining priority list and threading the health map.  The error messages
are `\x7bproviderName\x7d: \x7bresult.error\x7d` for a domain failure and
`\x7bproviderName\x7d: \x7berror\x7d` for a thrown error; a throw sets
`healthStatus[providerName] = false` before continuing; a success returns
immediately. -/
def runFallback {α : Type} (reg : ProviderName → Bool) (cap : Capability)
    (call : ProviderName → CallOutcome α) :
    List ProviderName → (ProviderName → Bool) → FallbackOutcome α
  | [], h => { firstSuccess := none, healthStatus := h, errors := [], trace := [] }
  | p :: rest, h =>
    if eligible reg h cap p then
      match call p with
      | .returned r =>
        if r.success then
          { firstSuccess := some r, healthStatus := h, errors := [], trace := [p] }
        else
          let o := runFallback reg cap call rest h
          { o with
            errors := (p.key ++ ": " ++ optStr r.error) :: o.errors
            trace := p :: o.trace }
      | .threw e =>
        let o := runFallback reg cap call rest (fun q => if q = p then false else h q)
        { o with
          errors := (p.key ++ ": " ++ e) :: o.errors
          trace := p :: o.trace }
    else
      runFallback reg cap call rest h

/-- The synthetic failure returned when the loop exhausts all candidates
(lines 222–228): `success:false`, `provider:"factory"`, `data:null`,
`error` = the accumulated messages joined with `"; "` after the fixed
`"All providers failed. Errors: "` prelude. -/
def allFailedResult (α : Type) (errs : List String) (now : Nat) : ProviderResponse α :=
  { data := none
    provider := "factory"
    timestamp := now
    success := false
    error := some ("All providers failed. Errors: " ++ String.intercalate "; " errs) }

/-- What a call of `executeWithFallback` yields: the returned response, the
factory state afterwards, and (for specification purposes) the invocation
trace and the error accumulator of the run. -/
structure ExecResult (α : Type) where
  result : ProviderResponse α
  state : FactoryState
  trace : List ProviderName
  errors : List String

/-- `ETFProviderFactory.executeWithFallback` (lines 192–229): run the loop
over the current priority list starting from the current health map; return
the first success unchanged, or the synthetic `"factory"` failure. -/
def executeWithFallback {α : Type} (st : FactoryState) (cap : Capability)
    (call : ProviderName → CallOutcome α) (now : Nat) : ExecResult α :=
  let o := runFallback st.providers cap call st.providerPriority st.healthStatus
  { result :=
      match o.firstSuccess with
      | some r => r
      | none => allFailedResult α o.errors now
    state := { st with healthStatus := o.healthStatus }
    trace := o.trace
    errors := o.errors }

/-- `ProviderCredentials` of `provider-factory.ts` — one optional API key per
provider. -/
structure ProviderCredentials where
  polygon : Option String
  finnhub : Option String
  eodhd : Option String
  fmp : Option String
  alphaVantage : Option String

/-- The credential field consulted for each provider name. -/
def credFor (c : ProviderCredentials) : ProviderName → Option String
  | .polygon => c.polygon
  | .finnhub => c.finnhub
  | .eodhd => c.eodhd
  | .fmp => c.fmp
  | .alphaVantage => c.alphaVantage

/-- JS truthiness of an optional string (`if (credentials.polygon)`):
`undefined` and `""` are falsy. -/
def truthyStr : Option String → Bool
  | none => false
  | some s => !s.isEmpty

/-- The registration order of `initializeProviders` (lines 64–89), i.e. the
insertion order of the `providers` map. -/
def registrationOrder : List ProviderName :=
  [.polygon, .finnhub, .eodhd, .fmp, .alphaVantage]

/-- The fixed default priority order of `setDefaultPriority` (lines 91–101),
before filtering to registered providers. -/
def defaultPriorityOrder : List ProviderName :=
  [.polygon, .eodhd, .fmp, .finnhub, .alphaVantage]

/-- The `ETFProviderFactory` constructor: `initializeProviders` registers
each provider whose credential is truthy and sets its health entry to
`true`; `setDefaultPriority` installs the fixed order filtered to
registered providers.  An unregistered name has no health entry
(`Map.get` yields falsy `undefined`, modelled as `false`). -/
def mkFactory (c : ProviderCredentials) : FactoryState :=
  let reg := fun p => truthyStr (credFor c p)
  { providers := reg
    providerPriority := defaultPriorityOrder.filter reg
    healthStatus := reg }

/-- `ETFProviderFactory.setProviderPriority` (lines 106–108): replace the
priority list wholesale by the given names filtered to registered
providers. -/
def setProviderPriority (st : FactoryState) (priority : List ProviderName) : FactoryState :=
  { st with providerPriority := priority.filter st.providers }

/-- `ProviderConfig` of `types/etf.ts`, restricted to the fields the claims
touch (the static per-provider `endpoints` template table carries no
behaviour used by any modelled operation and is omitted). -/
structure ProviderConfig where
  name : String
  apiKey : String
  baseUrl : String
  requestsPerMinute : Nat
  requestsPerDay : Nat
deriving DecidableEq, Repr

/-- The `config` object each provider constructor assigns (constructor of
each provider class); always present on a constructed provider. -/
def providerConfig (apiKey : String) : ProviderName → ProviderConfig
  | .polygon =>
    { name := "Polygon.io", apiKey := apiKey
      baseUrl := "https://api.polygon.io"
      requestsPerMinute := 5, requestsPerDay := 1000 }
  | .finnhub =>
    { name := "Finnhub", apiKey := apiKey
      baseUrl := "https://finnhub.io/api/v1"
      requestsPerMinute := 60, requestsPerDay := 1000 }
  | .eodhd =>
    { name := "EODHD", apiKey := apiKey
      baseUrl := "https://eodhd.com/api"
      requestsPerMinute := 20, requestsPerDay := 1000 }
  | .fmp =>
    { name := "Financial Modeling Prep", apiKey := apiKey
      baseUrl := "https://financialmodelingprep.com/api/v3"
      requestsPerMinute := 250, requestsPerDay := 250 }
  | .alphaVantage =>
    { name := "Alpha Vantage", apiKey := apiKey
      baseUrl := "https://www.alphavantage.co/query"
      requestsPerMinute := 5, requestsPerDay := 500 }

/-- JS truthiness of `provider.config`: an object value is always truthy,
so `provider.config ? true : false` evaluates to `true` for every
constructed provider. -/
def configTruthy (_ : ProviderConfig) : Bool := true

/-- `ETFProviderFactory.healthCheck` (lines 319–336): for every registered
provider (in registry insertion order) set `healthStatus[name]` to
`provider.config ? true : false` and collect the pairs into the returned
map; no provider method and no network request is involved.  `cfg` supplies
each registered provider's `config` object. -/
def healthCheck (st : FactoryState) (cfg : ProviderName → ProviderConfig) :
    FactoryState × List (ProviderName × Bool) :=
  let entries := registrationOrder.filter st.providers
  ({ st with
      healthStatus := fun p =>
        if st.providers p then configTruthy (cfg p) else st.healthStatus p }
   , entries.map fun p => (p, configTruthy (cfg p)))

/-- `ETFProviderFactory.hasProviders` (lines 348–350): `providers.size > 0`. -/
def hasProviders (st : FactoryState) : Bool :=
  !(registrationOrder.filter st.providers).isEmpty

/-- `ETFProviderFactory.getAvailableProviders` (lines 355–357): the registry
keys in insertion order. -/
def getAvailableProviders (st : FactoryState) : List ProviderName :=
  registrationOrder.filter st.providers

/-- `ETFProviderFactory.getQuote` (lines 234–239): fallback with capability
key `quote`; the per-provider closure `(provider) => provider.getQuote(symbol)`
is abstracted as `call`.  Note: no symbol validation happens here. -/
def factoryGetQuote {α : Type} (st : FactoryState)
    (call : ProviderName → CallOutcome α) (now : Nat) : ExecResult α :=
  executeWithFallback st .quote call now

/-- `ETFProviderFactory.getMetadata`: capability key `metadata`. -/
def factoryGetMetadata {α : Type} (st : FactoryState)
    (call : ProviderName → CallOutcome α) (now : Nat) : ExecResult α :=
  executeWithFallback st .metadata call now

/-- `ETFProviderFactory.getHoldings`: capability key `holdings`. -/
def factoryGetHoldings {α : Type} (st : FactoryState)
    (call : ProviderName → CallOutcome α) (now : Nat) : ExecResult α :=
  executeWithFallback st .holdings call now

/-- `ETFProviderFactory.getSectorAllocation`: capability key
`sectorAllocation`. -/
def factoryGetSectorAllocation {α : Type} (st : FactoryState)
    (call : ProviderName → CallOutcome α) (now : Nat) : ExecResult α :=
  executeWithFallback st .sectorAllocation call now

/-- `ETFProviderFactory.getCountryAllocation`: capability key
`countryAllocation`. -/
def factoryGetCountryAllocation {α : Type} (st : FactoryState)
    (call : ProviderName → CallOutcome α) (now : Nat) : ExecResult α :=
  executeWithFallback st .countryAllocation call now

/-- `ETFProviderFactory.getPerformance`: capability key `performance`. -/
def factoryGetPerformance {α : Type} (st : FactoryState)
    (call : ProviderName → CallOutcome α) (now : Nat) : ExecResult α :=
  executeWithFallback st .performance call now

/-- `ETFProviderFactory.getHistoricalData`: capability key `historicalData`. -/
def factoryGetHistoricalData {α : Type} (st : FactoryState)
    (call : ProviderName → CallOutcome α) (now : Nat) : ExecResult α :=
  executeWithFallback st .historicalData call now

/-- `ETFProviderFactory.search`: capability key `search`. -/
def factorySearch {α : Type} (st : FactoryState)
    (call : ProviderName → CallOutcome α) (now : Nat) : ExecResult α :=
  executeWithFallback st .search call now

/-! Domain entities of `types/etf.ts` that the modelled provider methods
produce.  JS `number` fields are modelled as `ℚ` (IEEE float arithmetic is
abstracted; no claim depends on a numeric value). -/

/-- `ETFQuote` of `types/etf.ts`; the optional `marketCap` (never set by any
provider's quote mapping) is `Option ℚ`. -/
structure ETFQuote where
  symbol : String
  name : String
  price : ℚ
  change : ℚ
  changePercent : ℚ
  volume : ℚ
  marketCap : Option ℚ
  timestamp : Nat
  currency : String
  exchange : String
deriving DecidableEq, Repr

/-- `ETFHolding` of `types/etf.ts`. -/
structure ETFHolding where
  symbol : String
  name : String
  weight : ℚ
  shares : Option ℚ
  marketValue : Option ℚ
deriving DecidableEq, Repr

/-- `ETFSectorAllocation` of `types/etf.ts`. -/
structure ETFSectorAllocation where
  sector : String
  weight : ℚ
deriving DecidableEq, Repr

/-- `ETFCountryAllocation` of `types/etf.ts`. -/
structure ETFCountryAllocation where
  country : String
  weight : ℚ
deriving DecidableEq, Repr

/-- `ETFPerformance` of `types/etf.ts`; the source field named `return`
(a Lean keyword) is embedded as `returnPct`, the period union type as
`String`. -/
structure ETFPerformance where
  symbol : String
  period : String
  returnPct : ℚ
deriving DecidableEq, Repr

/-! Helpers of `BaseETFProvider` (`base-provider.ts`). -/

/-- The guard of `BaseETFProvider.validateSymbol` (lines 156–160):
`!symbol || symbol.trim().length === 0`; when it holds the method throws
`new Error('Symbol is required')`. -/
def validateSymbolThrows (symbol : String) : Bool :=
  symbol.isEmpty || symbol.trim.length == 0

/-- String rendering of a thrown `Error` object inside a template literal
(`Error: message`). -/
def jsError (message : String) : String := "Error: " ++ message

/-- `BaseETFProvider.formatSymbol`: `symbol.toUpperCase().trim()`. -/
def formatSymbol (symbol : String) : String := symbol.toUpper.trim

/-- `EODHDProvider.formatSymbolWithExchange`: append `.US` unless the symbol
already carries an exchange suffix. -/
def formatSymbolWithExchange (symbol : String) : String :=
  if symbol.contains '.' then symbol else symbol ++ ".US"

/-- `BaseETFProvider.createSuccessResponse`. -/
def createSuccessResponse {α : Type} (name : String) (data : α) (now : Nat) :
    ProviderResponse α :=
  { data := some data, provider := name, timestamp := now, success := true, error := none }

/-- `BaseETFProvider.createErrorResponse` (`data: \x7b\x7d as T` is `none`). -/
def createErrorResponse {α : Type} (name : String) (error : String) (now : Nat) :
    ProviderResponse α :=
  { data := none, provider := name, timestamp := now, success := false, error := some error }

/-- Outcome of one `makeRequest` call: the promise resolves with a parsed
payload, or rejects (network failure / non-2xx / unparsable body), `e` being
the string rendering of the thrown value. -/
inductive FetchOutcome (π : Type) where
  | success (payload : π)
  | failure (e : String)

/-- A provider-method run: the response produced and the number of network
requests (`makeRequest` calls) issued while producing it. -/
structure MethodRun (α : Type) where
  response : ProviderResponse α
  netCalls : Nat

/-! Provider implementations — the methods the claims exercise.  Each method
follows its source body: validate, issue the network request(s) through the
oracle, map the payload; every throw inside the `try` is caught and turned
into a `createErrorResponse`. -/

/-- Payload of the EODHD real-time quote endpoint (`EODHDQuoteResponse`). -/
structure EODHDQuotePayload where
  code : String
  timestamp : Nat
  gmtoffset : Int
  openPrice : ℚ
  high : ℚ
  low : ℚ
  close : ℚ
  volume : ℚ
  previousClose : ℚ
  change : ℚ
  change_p : ℚ
deriving DecidableEq, Repr

/-- `EODHDProvider.getQuote` (eodhd.ts lines 162–186). -/
def eodhdGetQuote (symbol : String) (net : FetchOutcome EODHDQuotePayload)
    (now : Nat) : MethodRun ETFQuote :=
  if validateSymbolThrows symbol then
    ⟨createErrorResponse "EODHD" ("Failed to fetch quote: " ++ jsError "Symbol is required") now, 0⟩
  else
    match net with
    | .failure e => ⟨createErrorResponse "EODHD" ("Failed to fetch quote: " ++ e) now, 1⟩
    | .success r =>
      ⟨createSuccessResponse "EODHD"
        { symbol := r.code
          name := r.code
          price := r.close
          change := r.change
          changePercent := r.change_p
          volume := r.volume
          marketCap := none
          timestamp := r.timestamp * 1000
          currency := "USD"
          exchange := "US" } now, 1⟩

/-- `EODHDProvider.getPerformance` (lines 294–297): structurally
unsupported, returns a failure result without any network call. -/
def eodhdGetPerformance (_symbol : String) (_periods : List String) (now : Nat) :
    MethodRun (List ETFPerformance) :=
  ⟨createErrorResponse "EODHD" "Performance data calculation not implemented for EODHD" now, 0⟩

/-- Payload of the Finnhub `/quote` endpoint (`FinnhubQuoteResponse`). -/
structure FinnhubQuotePayload where
  c : ℚ
  d : ℚ
  dp : ℚ
  h : ℚ
  l : ℚ
  o : ℚ
  pc : ℚ
  t : Nat
deriving DecidableEq, Repr

/-- Payload of the Finnhub `/stock/profile2` endpoint, restricted to the
fields `getQuote` reads (`FinnhubCompanyProfileResponse`). -/
structure FinnhubProfilePayload where
  currency : String
  exchange : String
  name : String
deriving DecidableEq, Repr

/-- JS `a || b` on strings: the empty string is falsy. -/
def jsOrStr (a b : String) : String := if a.isEmpty then b else a

/-- `FinnhubProvider.getQuote` (finnhub source lines 529–557): two
sequential `makeRequest` calls (quote, then company profile for the name). -/
def finnhubGetQuote (symbol : String) (netQuote : FetchOutcome FinnhubQuotePayload)
    (netProfile : FetchOutcome FinnhubProfilePayload) (now : Nat) : MethodRun ETFQuote :=
  if validateSymbolThrows symbol then
    ⟨createErrorResponse "Finnhub" ("Failed to fetch quote: " ++ jsError "Symbol is required") now, 0⟩
  else
    match netQuote with
    | .failure e => ⟨createErrorResponse "Finnhub" ("Failed to fetch quote: " ++ e) now, 1⟩
    | .success q =>
      match netProfile with
      | .failure e => ⟨createErrorResponse "Finnhub" ("Failed to fetch quote: " ++ e) now, 2⟩
      | .success prof =>
        ⟨createSuccessResponse "Finnhub"
          { symbol := formatSymbol symbol
            name := jsOrStr prof.name (formatSymbol symbol)
            price := q.c
            change := q.d
            changePercent := q.dp
            volume := 0
            marketCap := none
            timestamp := q.t * 1000
            currency := jsOrStr prof.currency "USD"
            exchange := jsOrStr prof.exchange "NASDAQ" } now, 2⟩

/-- `FinnhubProvider.getPerformance` (lines 682–685): structurally
unsupported. -/
def finnhubGetPerformance (_symbol : String) (_periods : List String) (now : Nat) :
    MethodRun (List ETFPerformance) :=
  ⟨createErrorResponse "Finnhub" "Performance data calculation not implemented for Finnhub" now, 0⟩

/-- One element of the FMP `/quote` array payload (`FMPQuoteResponse`),
restricted to the fields `getQuote` reads. -/
structure FMPQuotePayload where
  symbol : String
  name : String
  price : ℚ
  changesPercentage : ℚ
  change : ℚ
  exchange : String
  volume : ℚ
  timestamp : Nat
deriving DecidableEq, Repr

/-- `FMPProvider.getQuote` (part_003 lines 151–183): the endpoint returns an
array; an absent/empty array yields `'No quote data found'`. -/
def fmpGetQuote (symbol : String) (net : FetchOutcome (List FMPQuotePayload))
    (now : Nat) : MethodRun ETFQuote :=
  if validateSymbolThrows symbol then
    ⟨createErrorResponse "Financial Modeling Prep"
      ("Failed to fetch quote: " ++ jsError "Symbol is required") now, 0⟩
  else
    match net with
    | .failure e =>
      ⟨createErrorResponse "Financial Modeling Prep" ("Failed to fetch quote: " ++ e) now, 1⟩
    | .success [] =>
      ⟨createErrorResponse "Financial Modeling Prep" "No quote data found" now, 1⟩
    | .success (r :: _) =>
      ⟨createSuccessResponse "Financial Modeling Prep"
        { symbol := r.symbol
          name := r.name
          price := r.price
          change := r.change
          changePercent := r.changesPercentage
          volume := r.volume
          marketCap := none
          timestamp := r.timestamp * 1000
          currency := "USD"
          exchange := r.exchange } now, 1⟩

/-- `FMPProvider.getPerformance` (part_003 lines 291–294): structurally
unsupported. -/
def fmpGetPerformance (_symbol : String) (_periods : List String) (now : Nat) :
    MethodRun (List ETFPerformance) :=
  ⟨createErrorResponse "Financial Modeling Prep"
    "Performance data calculation not implemented for FMP" now, 0⟩

/-- One aggregate of the Polygon previous-close payload
(`PolygonQuoteResponse.results[i]`); the ticker field `T` is embedded as
`tkr`. -/
structure PolygonAgg where
  tkr : String
  c : ℚ
  h : ℚ
  l : ℚ
  o : ℚ
  v : ℚ
  vw : ℚ
  t : Nat
deriving DecidableEq, Repr

/-- The Polygon previous-close payload (`PolygonQuoteResponse`); an absent
`results` field is merged with the empty list. -/
structure PolygonQuotePayload where
  results : List PolygonAgg
  status : String
  count : Nat
deriving DecidableEq, Repr

/-- `PolygonProvider.getQuote` (part_003 lines 510–540).  The computed
`change`/`changePercent` use exact rational arithmetic in place of IEEE
floats (division by a zero open price is the one point of divergence; no
claim touches it). -/
def polygonGetQuote (symbol : String) (net : FetchOutcome PolygonQuotePayload)
    (now : Nat) : MethodRun ETFQuote :=
  if validateSymbolThrows symbol then
    ⟨createErrorResponse "Polygon.io"
      ("Failed to fetch quote: " ++ jsError "Symbol is required") now, 0⟩
  else
    match net with
    | .failure e =>
      ⟨createErrorResponse "Polygon.io" ("Failed to fetch quote: " ++ e) now, 1⟩
    | .success resp =>
      match resp.results with
      | [] => ⟨createErrorResponse "Polygon.io" "No quote data found" now, 1⟩
      | r :: _ =>
        ⟨createSuccessResponse "Polygon.io"
          { symbol := formatSymbol symbol
            name := formatSymbol symbol
            price := r.c
            change := r.c - r.o
            changePercent := (r.c - r.o) / r.o * 100
            volume := r.v
            marketCap := none
            timestamp := r.t
            currency := "USD"
            exchange := "NASDAQ" } now, 1⟩

/-- `PolygonProvider.getHoldings` (part_003 lines 570–573): structurally
unsupported, returns a failure result without any network call. -/
def polygonGetHoldings (_symbol : String) (now : Nat) : MethodRun (List ETFHolding) :=
  ⟨createErrorResponse "Polygon.io" "Holdings data not available in Polygon.io" now, 0⟩

/-- `PolygonProvider.getSectorAllocation` (lines 575–578): structurally
unsupported. -/
def polygonGetSectorAllocation (_symbol : String) (now : Nat) :
    MethodRun (List ETFSectorAllocation) :=
  ⟨createErrorResponse "Polygon.io" "Sector allocation data not available in Polygon.io" now, 0⟩

/-- `PolygonProvider.getCountryAllocation` (lines 580–583): structurally
unsupported. -/
def polygonGetCountryAllocation (_symbol : String) (now : Nat) :
    MethodRun (List ETFCountryAllocation) :=
  ⟨createErrorResponse "Polygon.io" "Country allocation data not available in Polygon.io" now, 0⟩

/-- `PolygonProvider.getPerformance` (lines 585–588): structurally
unsupported. -/
def polygonGetPerformance (_symbol : String) (_periods : List String) (now : Nat) :
    MethodRun (List ETFPerformance) :=
  ⟨createErrorResponse "Polygon.io"
    "Performance data calculation not implemented for Polygon.io" now, 0⟩

/-- The `'Global Quote'` object of the Alpha Vantage payload, with the
numeric strings already parsed (`parseFloat`/`parseInt`/`Date` abstracted):
`symbol01` is `'01. symbol'`, `price05` is `parseFloat('05. price')`,
`volume06` is `parseInt('06. volume')`, `latestTradingDay07` is
`new Date('07. latest trading day').getTime()`, `change09` is
`parseFloat('09. change')`, `changePercent10` is
`parseFloat('10. change percent'.replace('%', ''))`. -/
structure AVGlobalQuote where
  symbol01 : String
  price05 : ℚ
  volume06 : ℚ
  latestTradingDay07 : Nat
  change09 : ℚ
  changePercent10 : ℚ
deriving DecidableEq, Repr

/-- `AlphaVantageProvider.getQuote` (part_004 lines 138–168): the payload's
`'Global Quote'` key may be absent (`none`), yielding
`'No quote data found'`. -/
def avGetQuote (symbol : String) (net : FetchOutcome (Option AVGlobalQuote))
    (now : Nat) : MethodRun ETFQuote :=
  if validateSymbolThrows symbol then
    ⟨createErrorResponse "Alpha Vantage"
      ("Failed to fetch quote: " ++ jsError "Symbol is required") now, 0⟩
  else
    match net with
    | .failure e =>
      ⟨createErrorResponse "Alpha Vantage" ("Failed to fetch quote: " ++ e) now, 1⟩
    | .success none =>
      ⟨createErrorResponse "Alpha Vantage" "No quote data found" now, 1⟩
    | .success (some g) =>
      ⟨createSuccessResponse "Alpha Vantage"
        { symbol := g.symbol01
          name := g.symbol01
          price := g.price05
          change := g.change09
          changePercent := g.changePercent10
          volume := g.volume06
          marketCap := none
          timestamp := g.latestTradingDay07
          currency := "USD"
          exchange := "NASDAQ" } now, 1⟩

/-- `AlphaVantageProvider.getHoldings` (part_004 lines 201–204):
structurally unsupported. -/
def avGetHoldings (_symbol : String) (now : Nat) : MethodRun (List ETFHolding) :=
  ⟨createErrorResponse "Alpha Vantage" "Holdings data not available in Alpha Vantage" now, 0⟩

/-- `AlphaVantageProvider.getSectorAllocation` (lines 206–209):
structurally unsupported. -/
def avGetSectorAllocation (_symbol : String) (now : Nat) :
    MethodRun (List ETFSectorAllocation) :=
  ⟨createErrorResponse "Alpha Vantage" "Sector allocation data not available in Alpha Vantage" now, 0⟩

/-- `AlphaVantageProvider.getCountryAllocation` (lines 211–214):
structurally unsupported. -/
def avGetCountryAllocation (_symbol : String) (now : Nat) :
    MethodRun (List ETFCountryAllocation) :=
  ⟨createErrorResponse "Alpha Vantage" "Country allocation data not available in Alpha Vantage" now, 0⟩

/-- `AlphaVantageProvider.getPerformance` (lines 216–219): structurally
unsupported. -/
def avGetPerformance (_symbol : String) (_periods : List String) (now : Nat) :
    MethodRun (List ETFPerformance) :=
  ⟨createErrorResponse "Alpha Vantage"
    "Performance data calculation not implemented for Alpha Vantage" now, 0⟩

/-! Unfolding equations for `runFallback`, one per branch of the loop body. -/

/-- The per-candidate message the loop pushes onto the error accumulator,
as a function of the call outcome. -/
def fallbackMsg {α : Type} (call : ProviderName → CallOutcome α) (p : ProviderName) : String :=
  match call p with
  | .returned r => p.key ++ ": " ++ optStr r.error
  | .threw e => p.key ++ ": " ++ e

lemma runFallback_nil {α : Type} (reg : ProviderName → Bool) (cap : Capability)
    (call : ProviderName → CallOutcome α) (h : ProviderName → Bool) :
    runFallback reg cap call [] h =
      { firstSuccess := none, healthStatus := h, errors := [], trace := [] } := rfl

lemma runFallback_cons_skip {α : Type} (reg : ProviderName → Bool) (cap : Capability)
    (call : ProviderName → CallOutcome α) (p : ProviderName) (rest : List ProviderName)
    (h : ProviderName → Bool) (hp : eligible reg h cap p = false) :
    runFallback reg cap call (p :: rest) h = runFallback reg cap call rest h := by
  simp [runFallback, hp]

lemma runFallback_cons_success {α : Type} (reg : ProviderName → Bool) (cap : Capability)
    (call : ProviderName → CallOutcome α) (p : ProviderName) (rest : List ProviderName)
    (h : ProviderName → Bool) (r : ProviderResponse α)
    (hp : eligible reg h cap p = true) (hc : call p = CallOutcome.returned r)
    (hs : r.success = true) :
    runFallback reg cap call (p :: rest) h =
      { firstSuccess := some r, healthStatus := h, errors := [], trace := [p] } := by
  simp [runFallback, hp, hc, hs]

lemma runFallback_cons_fail {α : Type} (reg : ProviderName → Bool) (cap : Capability)
    (call : ProviderName → CallOutcome α) (p : ProviderName) (rest : List ProviderName)
    (h : ProviderName → Bool) (r : ProviderResponse α)
    (hp : eligible reg h cap p = true) (hc : call p = CallOutcome.returned r)
    (hs : r.success = false) :
    runFallback reg cap call (p :: rest) h =
      { firstSuccess := (runFallback reg cap call rest h).firstSuccess
        healthStatus := (runFallback reg cap call rest h).healthStatus
        errors := (p.key ++ ": " ++ optStr r.error) :: (runFallback reg cap call rest h).errors
        trace := p :: (runFallback reg cap call rest h).trace } := by
  simp [runFallback, hp, hc, hs]

lemma runFallback_cons_threw {α : Type} (reg : ProviderName → Bool) (cap : Capability)
    (call : ProviderName → CallOutcome α) (p : ProviderName) (rest : List ProviderName)
    (h : ProviderName → Bool) (e : String)
    (hp : eligible reg h cap p = true) (hc : call p = CallOutcome.threw e) :
    runFallback reg cap call (p :: rest) h =
      { firstSuccess :=
          (runFallback reg cap call rest (fun q => if q = p then false else h q)).firstSuccess
        healthStatus :=
          (runFallback reg cap call rest (fun q => if q = p then false else h q)).healthStatus
        errors := (p.key ++ ": " ++ e) ::
          (runFallback reg cap call rest (fun q => if q = p then false else h q)).errors
        trace := p ::
          (runFallback reg cap call rest (fun q => if q = p then false else h q)).trace } := by
  simp [runFallback, hp, hc]

/-! Structural facts about one run of the fallback loop. -/

/-- The invocation trace is a sublist of the priority list processed. -/
lemma rf_trace_sublist {α : Type} (reg : ProviderName → Bool) (cap : Capability)
    (call : ProviderName → CallOutcome α) :
    ∀ (l : List ProviderName) (h : ProviderName → Bool),
      List.Sublist (runFallback reg cap call l h).trace l := by
  intro l
  induction l with
  | nil => intro h; simp [runFallback_nil]
  | cons p rest ih =>
    intro h
    by_cases hp : eligible reg h cap p
    · cases hc : call p with
      | returned r =>
        by_cases hs : r.success
        · rw [runFallback_cons_success reg cap call p rest h r hp hc hs]
          exact (List.nil_sublist rest).cons₂ p
        · rw [runFallback_cons_fail reg cap call p rest h r hp hc (Bool.eq_false_iff.mpr hs)]
          exact (ih h).cons₂ p
      | threw e =>
        rw [runFallback_cons_threw reg cap call p rest h e hp hc]
        exact (ih _).cons₂ p
    · rw [runFallback_cons_skip reg cap call p rest h (Bool.eq_false_iff.mpr hp)]
      exact (ih h).cons p

/-- Every invoked provider was registered and capability-capable. -/
lemma rf_trace_reg_cap {α : Type} (reg : ProviderName → Bool) (cap : Capability)
    (call : ProviderName → CallOutcome α) :
    ∀ (l : List ProviderName) (h : ProviderName → Bool) (q : ProviderName),
      q ∈ (runFallback reg cap call l h).trace →
      reg q = true ∧ capabilityMatrix q cap = true := by
  intro l
  induction l with
  | nil => intro h q hq; simp [runFallback_nil] at hq
  | cons p rest ih =>
    intro h q hq
    by_cases hp : eligible reg h cap p
    · have helig := hp
      simp only [eligible, Bool.and_eq_true] at helig
      cases hc : call p with
      | returned r =>
        by_cases hs : r.success
        · rw [runFallback_cons_success reg cap call p rest h r hp hc hs] at hq
          simp at hq
          subst hq
          exact ⟨helig.1.1, helig.2⟩
        · rw [runFallback_cons_fail reg cap call p rest h r hp hc (Bool.eq_false_iff.mpr hs)] at hq
          simp at hq
          rcases hq with hq | hq
          · subst hq; exact ⟨helig.1.1, helig.2⟩
          · exact ih h q hq
      | threw e =>
        rw [runFallback_cons_threw reg cap call p rest h e hp hc] at hq
        simp at hq
        rcases hq with hq | hq
        · subst hq; exact ⟨helig.1.1, helig.2⟩
        · exact ih _ q hq
    · rw [runFallback_cons_skip reg cap call p rest h (Bool.eq_false_iff.mpr hp)] at hq
      exact ih h q hq

/-- Health entries never recover inside a run: a `false` entry stays `false`. -/
lemma rf_health_preserve_false {α : Type} (reg : ProviderName → Bool) (cap : Capability)
    (call : ProviderName → CallOutcome α) :
    ∀ (l : List ProviderName) (h : ProviderName → Bool) (q : ProviderName),
      h q = false → (runFallback reg cap call l h).healthStatus q = false := by
  intro l
  induction l with
  | nil => intro h q hq; simpa [runFallback_nil] using hq
  | cons p rest ih =>
    intro h q hq
    by_cases hp : eligible reg h cap p
    · cases hc : call p with
      | returned r =>
        by_cases hs : r.success
        · rw [runFallback_cons_success reg cap call p rest h r hp hc hs]; exact hq
        · rw [runFallback_cons_fail reg cap call p rest h r hp hc (Bool.eq_false_iff.mpr hs)]
          exact ih h q hq
      | threw e =>
        rw [runFallback_cons_threw reg cap call p rest h e hp hc]
        refine ih _ q ?_
        by_cases hqp : q = p <;> simp [hqp, hq]
    · rw [runFallback_cons_skip reg cap call p rest h (Bool.eq_false_iff.mpr hp)]
      exact ih h q hq

/-- A provider whose health entry is `false` on entry is never invoked. -/
lemma rf_unhealthy_not_invoked {α : Type} (reg : ProviderName → Bool) (cap : Capability)
    (call : ProviderName → CallOutcome α) :
    ∀ (l : List ProviderName) (h : ProviderName → Bool) (q : ProviderName),
      h q = false → q ∉ (runFallback reg cap call l h).trace := by
  intro l
  induction l with
  | nil => intro h q hq; simp [runFallback_nil]
  | cons p rest ih =>
    intro h q hq
    by_cases hp : eligible reg h cap p
    · have hph : h p = true := by
        have := hp
        simp only [eligible, Bool.and_eq_true] at this
        exact this.1.2
      have hqp : q ≠ p := fun hqp => by rw [hqp, hph] at hq; exact Bool.noConfusion hq
      cases hc : call p with
      | returned r =>
        by_cases hs : r.success
        · rw [runFallback_cons_success reg cap call p rest h r hp hc hs]
          simp [hqp]
        · rw [runFallback_cons_fail reg cap call p rest h r hp hc (Bool.eq_false_iff.mpr hs)]
          simp only [List.mem_cons, not_or]
          exact ⟨hqp, ih h q hq⟩
      | threw e =>
        rw [runFallback_cons_threw reg cap call p rest h e hp hc]
        simp only [List.mem_cons, not_or]
        refine ⟨hqp, ih _ q ?_⟩
        simp [hqp, hq]
    · rw [runFallback_cons_skip reg cap call p rest h (Bool.eq_false_iff.mpr hp)]
      exact ih h q hq

/-- A provider whose call resolves (does not throw) keeps its health entry:
only a throwing provider's own entry is ever written. -/
lemma rf_health_eq_of_returned {α : Type} (reg : ProviderName → Bool) (cap : Capability)
    (call : ProviderName → CallOutcome α) (q : ProviderName) (r : ProviderResponse α)
    (hq : call q = CallOutcome.returned r) :
    ∀ (l : List ProviderName) (h : ProviderName → Bool),
      (runFallback reg cap call l h).healthStatus q = h q := by
  intro l
  induction l with
  | nil => intro h; simp [runFallback_nil]
  | cons p rest ih =>
    intro h
    by_cases hp : eligible reg h cap p
    · cases hc : call p with
      | returned s =>
        by_cases hs : s.success
        · rw [runFallback_cons_success reg cap call p rest h s hp hc hs]
        · rw [runFallback_cons_fail reg cap call p rest h s hp hc (Bool.eq_false_iff.mpr hs)]
          exact ih h
      | threw e =>
        have hqp : q ≠ p := fun hqp => by rw [hqp, hc] at hq; cases hq
        rw [runFallback_cons_threw reg cap call p rest h e hp hc]
        rw [ih _]
        simp [hqp]
    · rw [runFallback_cons_skip reg cap call p rest h (Bool.eq_false_iff.mpr hp)]
      exact ih h

/-- An invoked provider that threw has health entry `false` afterwards. -/
lemma rf_throw_in_trace_unhealthy {α : Type} (reg : ProviderName → Bool) (cap : Capability)
    (call : ProviderName → CallOutcome α) (q : ProviderName) (e : String)
    (hq : call q = CallOutcome.threw e) :
    ∀ (l : List ProviderName) (h : ProviderName → Bool),
      q ∈ (runFallback reg cap call l h).trace →
      (runFallback reg cap call l h).healthStatus q = false := by
  intro l
  induction l with
  | nil => intro h hmem; simp [runFallback_nil] at hmem
  | cons p rest ih =>
    intro h hmem
    by_cases hp : eligible reg h cap p
    · cases hc : call p with
      | returned s =>
        have hqp : q ≠ p := fun hqp => by rw [hqp, hc] at hq; cases hq
        by_cases hs : s.success
        · rw [runFallback_cons_success reg cap call p rest h s hp hc hs] at hmem ⊢
          simp [hqp] at hmem
        · rw [runFallback_cons_fail reg cap call p rest h s hp hc (Bool.eq_false_iff.mpr hs)] at hmem ⊢
          simp only [List.mem_cons] at hmem
          rcases hmem with hmem | hmem
          · exact absurd hmem hqp
          · exact ih h hmem
      | threw e2 =>
        rw [runFallback_cons_threw reg cap call p rest h e2 hp hc] at hmem ⊢
        by_cases hqp : q = p
        · exact rf_health_preserve_false reg cap call rest _ q (by simp [hqp])
        · simp only [List.mem_cons] at hmem
          rcases hmem with hmem | hmem
          · exact absurd hmem hqp
          · exact ih _ hmem
    · rw [runFallback_cons_skip reg cap call p rest h (Bool.eq_false_iff.mpr hp)] at hmem ⊢
      exact ih h hmem

/-- A response returned early by the loop is a success. -/
lemma rf_firstSuccess_success {α : Type} (reg : ProviderName → Bool) (cap : Capability)
    (call : ProviderName → CallOutcome α) :
    ∀ (l : List ProviderName) (h : ProviderName → Bool) (r : ProviderResponse α),
      (runFallback reg cap call l h).firstSuccess = some r → r.success = true := by
  intro l
  induction l with
  | nil => intro h r hr; simp [runFallback_nil] at hr
  | cons p rest ih =>
    intro h r hr
    by_cases hp : eligible reg h cap p
    · cases hc : call p with
      | returned s =>
        by_cases hs : s.success
        · rw [runFallback_cons_success reg cap call p rest h s hp hc hs] at hr
          simp at hr
          rw [← hr]; exact hs
        · rw [runFallback_cons_fail reg cap call p rest h s hp hc (Bool.eq_false_iff.mpr hs)] at hr
          exact ih h r hr
      | threw e =>
        rw [runFallback_cons_threw reg cap call p rest h e hp hc] at hr
        exact ih _ r hr
    · rw [runFallback_cons_skip reg cap call p rest h (Bool.eq_false_iff.mpr hp)] at hr
      exact ih h r hr

/-- Eligibility w.r.t. the health map after a throw update implies
eligibility w.r.t. the map before it. -/
lemma eligible_update_le (reg : ProviderName → Bool) (cap : Capability)
    (h : ProviderName → Bool) (p q : ProviderName)
    (hq : eligible reg (fun x => if x = p then false else h x) cap q = true) :
    eligible reg h cap q = true := by
  simp only [eligible, Bool.and_eq_true] at hq ⊢
  refine ⟨⟨hq.1.1, ?_⟩, hq.2⟩
  by_cases hqp : q = p
  · simpa [hqp] using hq.1.2
  · simpa [hqp] using hq.1.2

/-- With a duplicate-free priority list the invocation trace is an initial
segment of the statically filtered candidate list, and the whole of it when
no candidate succeeded. -/
lemma rf_filter_of_nodup {α : Type} (reg : ProviderName → Bool) (cap : Capability)
    (call : ProviderName → CallOutcome α) :
    ∀ (l : List ProviderName) (h : ProviderName → Bool), l.Nodup →
      ∃ post, l.filter (eligible reg h cap) = (runFallback reg cap call l h).trace ++ post ∧
        ((runFallback reg cap call l h).firstSuccess = none → post = []) := by
  intro l
  induction l with
  | nil =>
    intro h _
    exact ⟨[], by simp [runFallback_nil], fun _ => rfl⟩
  | cons p rest ih =>
    intro h hnd
    have hpnot : p ∉ rest := (List.nodup_cons.mp hnd).1
    have hnd' : rest.Nodup := (List.nodup_cons.mp hnd).2
    by_cases hp : eligible reg h cap p
    · cases hc : call p with
      | returned r =>
        by_cases hs : r.success
        · rw [runFallback_cons_success reg cap call p rest h r hp hc hs]
          refine ⟨rest.filter (eligible reg h cap), ?_, ?_⟩
          · simp [List.filter_cons, hp]
          · intro hnone; simp at hnone
        · rw [runFallback_cons_fail reg cap call p rest h r hp hc (Bool.eq_false_iff.mpr hs)]
          obtain ⟨post, heq, hpost⟩ := ih h hnd'
          refine ⟨post, ?_, fun hnone => hpost hnone⟩
          simp [List.filter_cons, hp, heq]
      | threw e =>
        rw [runFallback_cons_threw reg cap call p rest h e hp hc]
        have hfilt : rest.filter (eligible reg h cap) =
            rest.filter (eligible reg (fun x => if x = p then false else h x) cap) := by
          apply List.filter_congr
          intro q hq
          have hqp : q ≠ p := fun he => hpnot (he ▸ hq)
          simp [eligible, hqp]
        obtain ⟨post, heq, hpost⟩ := ih (fun x => if x = p then false else h x) hnd'
        refine ⟨post, ?_, fun hnone => hpost hnone⟩
        simp only [List.filter_cons, hp, if_true]
        rw [hfilt, heq]
        rfl
    · rw [runFallback_cons_skip reg cap call p rest h (Bool.eq_false_iff.mpr hp)]
      obtain ⟨post, heq, hpost⟩ := ih h hnd'
      refine ⟨post, ?_, hpost⟩
      simp [List.filter_cons, hp, heq]

/-- When no eligible candidate's call resolves successfully, the loop finds
no success and its error accumulator is exactly the per-candidate messages of
the invoked providers, in invocation order. -/
lemma rf_no_success {α : Type} (reg : ProviderName → Bool) (cap : Capability)
    (call : ProviderName → CallOutcome α) :
    ∀ (l : List ProviderName) (h : ProviderName → Bool),
      (∀ p, eligible reg h cap p = true →
        ∀ r, call p = CallOutcome.returned r → r.success = false) →
      (runFallback reg cap call l h).firstSuccess = none ∧
      (runFallback reg cap call l h).errors =
        (runFallback reg cap call l h).trace.map (fallbackMsg call) := by
  intro l
  induction l with
  | nil => intro h _; simp [runFallback_nil]
  | cons p rest ih =>
    intro h hfail
    by_cases hp : eligible reg h cap p
    · cases hc : call p with
      | returned r =>
        have hs : r.success = false := hfail p hp r hc
        rw [runFallback_cons_fail reg cap call p rest h r hp hc hs]
        obtain ⟨h1, h2⟩ := ih h hfail
        refine ⟨h1, ?_⟩
        simp only [List.map_cons, h2]
        congr 1
        simp [fallbackMsg, hc]
      | threw e =>
        rw [runFallback_cons_threw reg cap call p rest h e hp hc]
        obtain ⟨h1, h2⟩ := ih (fun x => if x = p then false else h x) (fun q hq r hcq =>
          hfail q (eligible_update_le reg cap h p q hq) r hcq)
        refine ⟨h1, ?_⟩
        simp only [List.map_cons, h2]
        congr 1
        simp [fallbackMsg, hc]
    · rw [runFallback_cons_skip reg cap call p rest h (Bool.eq_false_iff.mpr hp)]
      exact ih h hfail

/-- When no provider is eligible, the loop invokes nobody and changes
nothing. -/
lemma rf_all_ineligible {α : Type} (reg : ProviderName → Bool) (cap : Capability)
    (call : ProviderName → CallOutcome α) :
    ∀ (l : List ProviderName) (h : ProviderName → Bool),
      (∀ p, eligible reg h cap p = false) →
      runFallback reg cap call l h =
        { firstSuccess := none, healthStatus := h, errors := [], trace := [] } := by
  intro l
  induction l with
  | nil => intro h _; exact runFallback_nil reg cap call h
  | cons p rest ih =>
    intro h hall
    rw [runFallback_cons_skip reg cap call p rest h (hall p)]
    exact ih h hall

/-- First success wins: if every eligible provider strictly before `A` fails
(or is skipped, or throws), `A` is eligible, and `A` resolves with a
successful response `r`, then the loop stops at `A` with exactly `r`, having
invoked only a sub-sequence of the providers before `A`. -/
lemma rf_first_success {α : Type} (reg : ProviderName → Bool) (cap : Capability)
    (call : ProviderName → CallOutcome α) (A : ProviderName) (r : ProviderResponse α)
    (L2 : List ProviderName) (hc : call A = CallOutcome.returned r) (hs : r.success = true) :
    ∀ (L1 : List ProviderName) (h : ProviderName → Bool),
      A ∉ L1 → eligible reg h cap A = true →
      (∀ p ∈ L1, eligible reg h cap p = true →
        ∀ s, call p = CallOutcome.returned s → s.success = false) →
      (runFallback reg cap call (L1 ++ A :: L2) h).firstSuccess = some r ∧
      ∃ tr1, (runFallback reg cap call (L1 ++ A :: L2) h).trace = tr1 ++ [A] ∧
        List.Sublist tr1 L1 := by
  intro L1
  induction L1 with
  | nil =>
    intro h _ hA _
    simp only [List.nil_append]
    rw [runFallback_cons_success reg cap call A L2 h r hA hc hs]
    exact ⟨rfl, [], rfl, List.nil_sublist []⟩
  | cons p rest ih =>
    intro h hnotin hA hfail
    have hpA : A ≠ p := fun he => hnotin (by simp [he])
    have hnotin' : A ∉ rest := fun hm => hnotin (List.mem_cons_of_mem p hm)
    by_cases hp : eligible reg h cap p
    · cases hcp : call p with
      | returned s =>
        have hsf : s.success = false := hfail p (List.mem_cons_self p rest) hp s hcp
        rw [show (p :: rest) ++ A :: L2 = p :: (rest ++ A :: L2) from rfl]
        rw [runFallback_cons_fail reg cap call p (rest ++ A :: L2) h s hp hcp hsf]
        obtain ⟨h1, tr1, htr, hsub⟩ := ih h hnotin' hA
          (fun q hq hel s2 hc2 => hfail q (List.mem_cons_of_mem p hq) hel s2 hc2)
        exact ⟨h1, p :: tr1, by simp [htr], hsub.cons₂ p⟩
      | threw e =>
        rw [show (p :: rest) ++ A :: L2 = p :: (rest ++ A :: L2) from rfl]
        rw [runFallback_cons_threw reg cap call p (rest ++ A :: L2) h e hp hcp]
        have hA2 : eligible reg (fun q => if q = p then false else h q) cap A = true := by
          simp only [eligible, Bool.and_eq_true] at hA ⊢
          exact ⟨⟨hA.1.1, by simpa [hpA] using hA.1.2⟩, hA.2⟩
        obtain ⟨h1, tr1, htr, hsub⟩ := ih (fun q => if q = p then false else h q) hnotin' hA2
          (fun q hq hel s2 hc2 =>
            hfail q (List.mem_cons_of_mem p hq) (eligible_update_le reg cap h p q hel) s2 hc2)
        exact ⟨h1, p :: tr1, by rw [List.cons_append, htr], hsub.cons₂ p⟩
    · rw [show (p :: rest) ++ A :: L2 = p :: (rest ++ A :: L2) from rfl]
      rw [runFallback_cons_skip reg cap call p (rest ++ A :: L2) h (Bool.eq_false_iff.mpr hp)]
      obtain ⟨h1, tr1, htr, hsub⟩ := ih h hnotin' hA
        (fun q hq hel s2 hc2 => hfail q (List.mem_cons_of_mem p hq) hel s2 hc2)
      exact ⟨h1, tr1, htr, hsub.cons p⟩

/-! Projections of `executeWithFallback` onto the underlying loop run. -/

lemma exec_trace {α : Type} (st : FactoryState) (cap : Capability)
    (call : ProviderName → CallOutcome α) (now : Nat) :
    (executeWithFallback st cap call now).trace =
      (runFallback st.providers cap call st.providerPriority st.healthStatus).trace := rfl

lemma exec_errors {α : Type} (st : FactoryState) (cap : Capability)
    (call : ProviderName → CallOutcome α) (now : Nat) :
    (executeWithFallback st cap call now).errors =
      (runFallback st.providers cap call st.providerPriority st.healthStatus).errors := rfl

lemma exec_state_health {α : Type} (st : FactoryState) (cap : Capability)
    (call : ProviderName → CallOutcome α) (now : Nat) :
    (executeWithFallback st cap call now).state.healthStatus =
      (runFallback st.providers cap call st.providerPriority st.healthStatus).healthStatus := rfl

lemma exec_state_providers {α : Type} (st : FactoryState) (cap : Capability)
    (call : ProviderName → CallOutcome α) (now : Nat) :
    (executeWithFallback st cap call now).state.providers = st.providers := rfl

lemma exec_state_priority {α : Type} (st : FactoryState) (cap : Capability)
    (call : ProviderName → CallOutcome α) (now : Nat) :
    (executeWithFallback st cap call now).state.providerPriority = st.providerPriority := rfl

lemma exec_result_of_some {α : Type} (st : FactoryState) (cap : Capability)
    (call : ProviderName → CallOutcome α) (now : Nat) (r : ProviderResponse α)
    (hfs : (runFallback st.providers cap call st.providerPriority st.healthStatus).firstSuccess =
      some r) :
    (executeWithFallback st cap call now).result = r := by
  simp [executeWithFallback, hfs]

lemma exec_result_of_none {α : Type} (st : FactoryState) (cap : Capability)
    (call : ProviderName → CallOutcome α) (now : Nat)
    (hfs : (runFallback st.providers cap call st.providerPriority st.healthStatus).firstSuccess =
      none) :
    (executeWithFallback st cap call now).result =
      allFailedResult α
        (runFallback st.providers cap call st.providerPriority st.healthStatus).errors now := by
  simp [executeWithFallback, hfs]

/-- An unsuccessful aggregate result means the loop found no success. -/
lemma exec_failure_firstSuccess_none {α : Type} (st : FactoryState) (cap : Capability)
    (call : ProviderName → CallOutcome α) (now : Nat)
    (hres : (executeWithFallback st cap call now).result.success = false) :
    (runFallback st.providers cap call st.providerPriority st.healthStatus).firstSuccess =
      none := by
  cases hfs : (runFallback st.providers cap call st.providerPriority st.healthStatus).firstSuccess with
  | none => rfl
  | some r =>
    have hr := rf_firstSuccess_success st.providers cap call st.providerPriority st.healthStatus r hfs
    rw [exec_result_of_some st cap call now r hfs, hr] at hres
    exact Bool.noConfusion hres

/-! Claim theorems. -/

/-- C1: for every registered-provider set, priority list, health state and
capability key, the fallback loop attempts providers exactly in the order
given by the priority list restricted to registered providers, and never
invokes a provider that is unregistered, marked unhealthy, or whose
capability-matrix entry for the requested capability is false: the
invocation trace is an initial segment of the priority list filtered by
eligibility (the whole of it when no candidate succeeds), and every invoked
provider is registered, healthy and capable. -/
theorem C1_fallback_priority_filter {α : Type} (st : FactoryState) (cap : Capability)
    (call : ProviderName → CallOutcome α) (now : Nat)
    (hnd : st.providerPriority.Nodup) :
    (∃ post, st.providerPriority.filter (eligible st.providers st.healthStatus cap) =
        (executeWithFallback st cap call now).trace ++ post) ∧
    ((executeWithFallback st cap call now).result.success = false →
      (executeWithFallback st cap call now).trace =
        st.providerPriority.filter (eligible st.providers st.healthStatus cap)) ∧
    (∀ p ∈ (executeWithFallback st cap call now).trace,
      st.providers p = true ∧ st.healthStatus p = true ∧ capabilityMatrix p cap = true) := by
  obtain ⟨post, heq, hpost⟩ :=
    rf_filter_of_nodup st.providers cap call st.providerPriority st.healthStatus hnd
  refine ⟨⟨post, by rw [exec_trace]; exact heq⟩, ?_, ?_⟩
  · intro hres
    have hfs := exec_failure_firstSuccess_none st cap call now hres
    rw [exec_trace, heq, hpost hfs, List.append_nil]
  · intro p hp
    rw [exec_trace] at hp
    have hmem : p ∈ st.providerPriority.filter (eligible st.providers st.healthStatus cap) := by
      rw [heq]; exact List.mem_append_left post hp
    have helig := (List.mem_filter.mp hmem).2
    simp only [eligible, Bool.and_eq_true] at helig
    exact ⟨helig.1.1, helig.1.2, helig.2⟩

/-- Witness state for C1: Polygon and EODHD registered. -/
def c1State : FactoryState :=
  mkFactory
    { polygon := some "pk", finnhub := none, eodhd := some "ek", fmp := none
      alphaVantage := none }

/-- Witness call for C1: every provider reports a domain failure. -/
def c1Call : ProviderName → CallOutcome Unit :=
  fun p => CallOutcome.returned
    { data := none, provider := p.key, timestamp := 1, success := false, error := some "nope" }

/-- Witness for C1 at a concrete factory: a holdings request invokes exactly
the eligible candidates in priority order (Polygon is skipped because its
holdings capability is false). -/
theorem C1_fallback_priority_filter_witness :
    (executeWithFallback c1State Capability.holdings c1Call 2).trace =
      c1State.providerPriority.filter
        (eligible c1State.providers c1State.healthStatus Capability.holdings) :=
  (C1_fallback_priority_filter c1State Capability.holdings c1Call 2 (by decide)).2.1 rfl

/-- C2: first success wins.  If the priority list splits as
`L1 ++ A :: L2`, every eligible provider in `L1` fails on this request, and
eligible `A` resolves successfully with `r`, then the aggregate result is
exactly `A`'s response and no provider of `L2` is ever invoked. -/
theorem C2_first_success_wins {α : Type} (st : FactoryState) (cap : Capability)
    (call : ProviderName → CallOutcome α) (now : Nat)
    (L1 L2 : List ProviderName) (A : ProviderName) (r : ProviderResponse α)
    (hsplit : st.providerPriority = L1 ++ A :: L2)
    (hnd : st.providerPriority.Nodup)
    (hA : eligible st.providers st.healthStatus cap A = true)
    (hcall : call A = CallOutcome.returned r) (hr : r.success = true)
    (hfail : ∀ p ∈ L1, eligible st.providers st.healthStatus cap p = true →
      ∀ s, call p = CallOutcome.returned s → s.success = false) :
    (executeWithFallback st cap call now).result = r ∧
    ∀ B ∈ L2, B ∉ (executeWithFallback st cap call now).trace := by
  rw [hsplit] at hnd
  have hnd2 := List.nodup_append.mp hnd
  have hnotin : A ∉ L1 := fun hm => hnd2.2.2 hm (List.mem_cons_self A L2)
  obtain ⟨hfs, tr1, htr, hsub⟩ :=
    rf_first_success st.providers cap call A r L2 hcall hr L1 st.healthStatus hnotin hA hfail
  constructor
  · exact exec_result_of_some st cap call now r (by rw [hsplit]; exact hfs)
  · intro B hB hmem
    rw [exec_trace, hsplit, htr] at hmem
    rcases List.mem_append.mp hmem with hm | hm
    · exact hnd2.2.2 (hsub.subset hm) (List.mem_cons_of_mem A hB)
    · have hBA : B = A := by simpa using hm
      subst hBA
      exact (List.nodup_cons.mp hnd2.2.1).1 hB

/-- Witness state for C2: Polygon and EODHD registered,
priority `[polygon, eodhd]`. -/
def c2State : FactoryState :=
  mkFactory
    { polygon := some "pk", finnhub := none, eodhd := some "ek", fmp := none
      alphaVantage := none }

/-- The successful response of the witness scenario for C2. -/
def c2Resp : ProviderResponse Unit :=
  { data := some (), provider := "EODHD", timestamp := 2, success := true, error := none }

/-- Witness call for C2: Polygon fails with a domain failure, EODHD
succeeds. -/
def c2Call : ProviderName → CallOutcome Unit :=
  fun p =>
    match p with
    | .polygon => CallOutcome.returned
        { data := none, provider := "Polygon.io", timestamp := 1, success := false
          error := some "No quote data found" }
    | _ => CallOutcome.returned c2Resp

/-- Witness for C2 at a concrete factory: with priority
`[polygon, eodhd]` and Polygon failing, EODHD's response is returned
unchanged. -/
theorem C2_first_success_wins_witness :
    (executeWithFallback c2State Capability.quote c2Call 9).result = c2Resp :=
  (C2_first_success_wins c2State Capability.quote c2Call 9 [ProviderName.polygon] []
    ProviderName.eodhd c2Resp rfl (by decide) (by decide) rfl rfl
    (by
      intro p hp hel s hcs
      have hp2 : p = ProviderName.polygon := by simpa using hp
      subst hp2
      cases hcs
      rfl)).1

/-- C3: a thrown provider call marks that provider unhealthy in the state
the aggregator keeps, an initially-unhealthy provider is never invoked by
any subsequent fallback chain, fallback runs and `setProviderPriority` never
turn an unhealthy entry healthy, and `healthCheck` marks every registered
provider healthy — it is the only operation that transitions
unhealthy → healthy. -/
theorem C3_throw_penalizes_health_until_healthCheck :
    (∀ (α : Type) (st : FactoryState) (cap : Capability)
        (call : ProviderName → CallOutcome α) (now : Nat) (A : ProviderName) (e : String),
        call A = CallOutcome.threw e →
        A ∈ (executeWithFallback st cap call now).trace →
        (executeWithFallback st cap call now).state.healthStatus A = false) ∧
    (∀ (α : Type) (st : FactoryState) (cap : Capability)
        (call : ProviderName → CallOutcome α) (now : Nat) (A : ProviderName),
        st.healthStatus A = false → A ∉ (executeWithFallback st cap call now).trace) ∧
    (∀ (α : Type) (st : FactoryState) (cap : Capability)
        (call : ProviderName → CallOutcome α) (now : Nat) (A : ProviderName),
        st.healthStatus A = false →
        (executeWithFallback st cap call now).state.healthStatus A = false) ∧
    (∀ (st : FactoryState) (l : List ProviderName) (A : ProviderName),
        st.healthStatus A = false → (setProviderPriority st l).healthStatus A = false) ∧
    (∀ (st : FactoryState) (cfg : ProviderName → ProviderConfig) (A : ProviderName),
        st.providers A = true → ((healthCheck st cfg).1).healthStatus A = true) := by
  refine ⟨?_, ?_, ?_, ?_, ?_⟩
  · intro α st cap call now A e hc hmem
    rw [exec_state_health]
    exact rf_throw_in_trace_unhealthy st.providers cap call A e hc st.providerPriority
      st.healthStatus (by rwa [exec_trace] at hmem)
  · intro α st cap call now A hA
    rw [exec_trace]
    exact rf_unhealthy_not_invoked st.providers cap call st.providerPriority st.healthStatus A hA
  · intro α st cap call now A hA
    rw [exec_state_health]
    exact rf_health_preserve_false st.providers cap call st.providerPriority st.healthStatus A hA
  · intro st l A hA
    exact hA
  · intro st cfg A hA
    simp [healthCheck, configTruthy, hA]

/-- Witness state for C3: EODHD registered. -/
def c3State : FactoryState :=
  mkFactory
    { polygon := none, finnhub := none, eodhd := some "ek", fmp := none, alphaVantage := none }

/-- Witness call for C3: every provider call throws. -/
def c3Call : ProviderName → CallOutcome Unit := fun _ => CallOutcome.threw "boom"

/-- Witness for C3 at a concrete factory: EODHD throws on a quote request
and is marked unhealthy in the resulting state. -/
theorem C3_throw_penalizes_health_witness :
    (executeWithFallback c3State Capability.quote c3Call 0).state.healthStatus
      ProviderName.eodhd = false :=
  C3_throw_penalizes_health_until_healthCheck.1 Unit c3State Capability.quote c3Call 0
    ProviderName.eodhd "boom" rfl (by decide)

/-- C4: a provider call that resolves (in particular a domain failure with
`success == false`) never changes that provider's health entry; the
registry and the priority list are never touched by a fallback run; and if
every provider's call resolves, the whole health tracker is unchanged —
only the error accumulator grows. -/
theorem C4_domain_failure_preserves_health {α : Type} (st : FactoryState) (cap : Capability)
    (call : ProviderName → CallOutcome α) (now : Nat) (A : ProviderName)
    (r : ProviderResponse α) (hc : call A = CallOutcome.returned r) :
    (executeWithFallback st cap call now).state.healthStatus A = st.healthStatus A ∧
    (executeWithFallback st cap call now).state.providers = st.providers ∧
    (executeWithFallback st cap call now).state.providerPriority = st.providerPriority ∧
    ((∀ p, ∃ s, call p = CallOutcome.returned s) →
      (executeWithFallback st cap call now).state.healthStatus = st.healthStatus) := by
  refine ⟨?_, rfl, rfl, ?_⟩
  · rw [exec_state_health]
    exact rf_health_eq_of_returned st.providers cap call A r hc st.providerPriority st.healthStatus
  · intro hall
    funext q
    obtain ⟨s, hs⟩ := hall q
    rw [exec_state_health]
    exact rf_health_eq_of_returned st.providers cap call q s hs st.providerPriority st.healthStatus

/-- Witness state for C4: EODHD registered. -/
def c4State : FactoryState :=
  mkFactory
    { polygon := none, finnhub := none, eodhd := some "ek", fmp := none, alphaVantage := none }

/-- The domain-failure response of the witness scenario for C4. -/
def c4Resp : ProviderResponse Unit :=
  { data := none, provider := "EODHD", timestamp := 1, success := false
    error := some "No historical data found" }

/-- Witness call for C4: every provider reports a domain failure. -/
def c4Call : ProviderName → CallOutcome Unit := fun _ => CallOutcome.returned c4Resp

/-- Witness for C4 at a concrete factory: EODHD's domain failure leaves its
health entry at its prior value. -/
theorem C4_domain_failure_preserves_health_witness :
    (executeWithFallback c4State Capability.quote c4Call 0).state.healthStatus
        ProviderName.eodhd =
      c4State.healthStatus ProviderName.eodhd :=
  (C4_domain_failure_preserves_health c4State Capability.quote c4Call 0 ProviderName.eodhd
    c4Resp rfl).1

/-- State for the C5 scenario: EODHD registered, returning a domain
failure. -/
def c5State : FactoryState :=
  mkFactory
    { polygon := none, finnhub := none, eodhd := some "ek", fmp := none, alphaVantage := none }

/-- Call for the C5 scenario: every provider reports the domain failure
`"no data"`. -/
def c5Call : ProviderName → CallOutcome Unit :=
  fun _ => CallOutcome.returned
    { data := none, provider := "EODHD", timestamp := 3, success := false
      error := some "no data" }

/-- C5 counterexample: when every candidate fails, the returned error string
is NOT the accumulated per-provider messages joined with `"; "` — the code
prepends the fixed prelude `"All providers failed. Errors: "` to that
join. -/
theorem C5_error_join_counterexample :
    (executeWithFallback c5State Capability.quote c5Call 7).errors = ["eodhd: no data"] ∧
    (executeWithFallback c5State Capability.quote c5Call 7).result.error =
      some "All providers failed. Errors: eodhd: no data" ∧
    (executeWithFallback c5State Capability.quote c5Call 7).result.error ≠
      some (String.intercalate "; "
        (executeWithFallback c5State Capability.quote c5Call 7).errors) := by
  refine ⟨rfl, rfl, ?_⟩
  decide

/-- C5 as amended: when every eligible candidate fails or throws, the result
is the synthetic failure with `success:false`, `provider:"factory"`, unset
data, and an error string equal to `"All providers failed. Errors: "`
followed by the per-provider messages (each `provider: error`) joined with
`"; "`, listing every invoked provider's message in priority order. -/
theorem C5_exhausted_result_amended {α : Type} (st : FactoryState) (cap : Capability)
    (call : ProviderName → CallOutcome α) (now : Nat)
    (hfail : ∀ p, eligible st.providers st.healthStatus cap p = true →
      ∀ r, call p = CallOutcome.returned r → r.success = false) :
    (executeWithFallback st cap call now).result =
      allFailedResult α (executeWithFallback st cap call now).errors now ∧
    (executeWithFallback st cap call now).errors =
      (executeWithFallback st cap call now).trace.map (fallbackMsg call) ∧
    (executeWithFallback st cap call now).result.error =
      some ("All providers failed. Errors: " ++ String.intercalate "; "
        ((executeWithFallback st cap call now).trace.map (fallbackMsg call))) ∧
    List.Sublist (executeWithFallback st cap call now).trace st.providerPriority ∧
    (executeWithFallback st cap call now).result.provider = "factory" ∧
    (executeWithFallback st cap call now).result.data = none ∧
    (executeWithFallback st cap call now).result.success = false := by
  obtain ⟨hfs, herr⟩ :=
    rf_no_success st.providers cap call st.providerPriority st.healthStatus hfail
  have hres := exec_result_of_none st cap call now hfs
  have herr2 : (executeWithFallback st cap call now).errors =
      (executeWithFallback st cap call now).trace.map (fallbackMsg call) := by
    rw [exec_errors, exec_trace]; exact herr
  refine ⟨?_, herr2, ?_, ?_, ?_, ?_, ?_⟩
  · rw [exec_errors]; exact hres
  · rw [hres, ← herr2, exec_errors]; rfl
  · rw [exec_trace]
    exact rf_trace_sublist st.providers cap call st.providerPriority st.healthStatus
  · rw [hres]; rfl
  · rw [hres]; rfl
  · rw [hres]; rfl

/-- Witness for the amended C5 at the concrete scenario above. -/
theorem C5_exhausted_result_amended_witness :
    (executeWithFallback c5State Capability.quote c5Call 7).result.provider = "factory" :=
  (C5_exhausted_result_amended c5State Capability.quote c5Call 7
    (fun _ _ r hcr => by cases hcr; rfl)).2.2.2.2.1

/-- State for the C6 scenario: empty registry (no credentials). -/
def c6EmptyState : FactoryState :=
  mkFactory
    { polygon := none, finnhub := none, eodhd := none, fmp := none, alphaVantage := none }

/-- State for the C6 comparison scenario: only Polygon registered (which is
holdings-incapable). -/
def c6PolygonState : FactoryState :=
  mkFactory
    { polygon := some "pk", finnhub := none, eodhd := none, fmp := none, alphaVantage := none }

/-- Call for the C6 scenario (never reached). -/
def c6Call : ProviderName → CallOutcome Unit := fun _ => CallOutcome.threw "network unreachable"

/-- C6 counterexample: with an empty registry, `getQuote` performs zero
provider calls but returns the ordinary synthetic factory failure with an
empty accumulator — a value identical to the aggregate-exhaustion result of
a registry whose only provider is capability-skipped — rather than any
distinguished `NoProvidersConfiguredError`. -/
theorem C6_no_providers_counterexample :
    (factoryGetQuote c6EmptyState c6Call 5).trace = [] ∧
    (factoryGetQuote c6EmptyState c6Call 5).result.error =
      some "All providers failed. Errors: " ∧
    (factoryGetQuote c6EmptyState c6Call 5).result =
      (factoryGetHoldings c6PolygonState c6Call 5).result :=
  ⟨rfl, rfl, rfl⟩

/-- C6 as amended: when no provider is registered (or none is eligible for
the requested capability), the fallback loop performs zero provider calls
and immediately returns the synthetic factory failure with an empty error
accumulator, leaving health untouched; no distinct
`NoProvidersConfiguredError` exists. -/
theorem C6_no_providers_amended {α : Type} (st : FactoryState) (cap : Capability)
    (call : ProviderName → CallOutcome α) (now : Nat)
    (h : ∀ p, eligible st.providers st.healthStatus cap p = false) :
    (executeWithFallback st cap call now).trace = [] ∧
    (executeWithFallback st cap call now).errors = [] ∧
    (executeWithFallback st cap call now).result = allFailedResult α [] now ∧
    (executeWithFallback st cap call now).state.healthStatus = st.healthStatus := by
  have hrun := rf_all_ineligible st.providers cap call st.providerPriority st.healthStatus h
  refine ⟨by rw [exec_trace, hrun], by rw [exec_errors, hrun], ?_,
    by rw [exec_state_health, hrun]⟩
  have hfs : (runFallback st.providers cap call st.providerPriority
      st.healthStatus).firstSuccess = none := by rw [hrun]
  rw [exec_result_of_none st cap call now hfs, hrun]

/-- Witness for the amended C6 at the empty registry. -/
theorem C6_no_providers_amended_witness :
    (factoryGetQuote c6EmptyState c6Call 5).result = allFailedResult Unit [] 5 :=
  (C6_no_providers_amended c6EmptyState Capability.quote c6Call 5
    (by intro p; cases p <;> rfl)).2.2.1

/-- State for the C7 scenario: Finnhub and EODHD registered,
default priority `[eodhd, finnhub]`. -/
def c7State : FactoryState :=
  mkFactory
    { polygon := none, finnhub := some "fk", eodhd := some "ek", fmp := none
      alphaVantage := none }

/-- Call for the C7 scenario: each registered provider's `getQuote` applied
to the empty symbol (its own validation converts the throw into a failure
response; no network request is issued, so the oracle value is irrelevant). -/
def c7Call : ProviderName → CallOutcome ETFQuote :=
  fun p =>
    match p with
    | .eodhd => CallOutcome.returned
        (eodhdGetQuote "" (FetchOutcome.failure "unreachable") 11).response
    | .finnhub => CallOutcome.returned
        (finnhubGetQuote "" (FetchOutcome.failure "unreachable")
          (FetchOutcome.failure "unreachable") 12).response
    | _ => CallOutcome.threw "unregistered"

/-- C7 counterexample: for the empty symbol the aggregator performs no
validation and does NOT return a validation failure immediately — it walks
the priority list, invokes both registered providers (each fails fast
locally with zero network calls), and returns the aggregated factory
failure. -/
theorem C7_no_aggregator_validation_counterexample :
    (factoryGetQuote c7State c7Call 13).trace =
      [ProviderName.eodhd, ProviderName.finnhub] ∧
    (factoryGetQuote c7State c7Call 13).result.provider = "factory" ∧
    (factoryGetQuote c7State c7Call 13).result.success = false ∧
    (eodhdGetQuote "" (FetchOutcome.failure "unreachable") 11).netCalls = 0 ∧
    (finnhubGetQuote "" (FetchOutcome.failure "unreachable")
      (FetchOutcome.failure "unreachable") 12).netCalls = 0 :=
  ⟨rfl, rfl, rfl, rfl, rfl⟩

/-- C7 as amended: each provider (not the aggregator) validates the symbol:
for every empty or whitespace-only symbol, every provider's `getQuote`
returns a well-formed failure response naming the provider, with zero
network calls, for every network-oracle value; the failure then propagates
through the ordinary fallback loop rather than short-circuiting it. -/
theorem C7_provider_validation_amended (symbol : String) (now : Nat)
    (hsym : validateSymbolThrows symbol = true) :
    (∀ net, (eodhdGetQuote symbol net now).netCalls = 0 ∧
      (eodhdGetQuote symbol net now).response.success = false ∧
      (eodhdGetQuote symbol net now).response.provider = "EODHD" ∧
      (eodhdGetQuote symbol net now).response.error =
        some "Failed to fetch quote: Error: Symbol is required") ∧
    (∀ nq np, (finnhubGetQuote symbol nq np now).netCalls = 0 ∧
      (finnhubGetQuote symbol nq np now).response.success = false ∧
      (finnhubGetQuote symbol nq np now).response.provider = "Finnhub") ∧
    (∀ net, (fmpGetQuote symbol net now).netCalls = 0 ∧
      (fmpGetQuote symbol net now).response.success = false ∧
      (fmpGetQuote symbol net now).response.provider = "Financial Modeling Prep") ∧
    (∀ net, (polygonGetQuote symbol net now).netCalls = 0 ∧
      (polygonGetQuote symbol net now).response.success = false ∧
      (polygonGetQuote symbol net now).response.provider = "Polygon.io") ∧
    (∀ net, (avGetQuote symbol net now).netCalls = 0 ∧
      (avGetQuote symbol net now).response.success = false ∧
      (avGetQuote symbol net now).response.provider = "Alpha Vantage") := by
  refine ⟨?_, ?_, ?_, ?_, ?_⟩
  · intro net
    have he : ("Failed to fetch quote: " ++ jsError "Symbol is required") =
        "Failed to fetch quote: Error: Symbol is required" := by decide
    simp [eodhdGetQuote, hsym, createErrorResponse, he]
  · intro nq np
    simp [finnhubGetQuote, hsym, createErrorResponse]
  · intro net
    simp [fmpGetQuote, hsym, createErrorResponse]
  · intro net
    simp [polygonGetQuote, hsym, createErrorResponse]
  · intro net
    simp [avGetQuote, hsym, createErrorResponse]

/-- Witness for the amended C7 at the empty symbol. -/
theorem C7_provider_validation_amended_witness :
    validateSymbolThrows "" = true ∧
    (eodhdGetQuote "" (FetchOutcome.failure "x") 0).netCalls = 0 :=
  ⟨by decide, ((C7_provider_validation_amended "" 0 (by decide)).1
    (FetchOutcome.failure "x")).1⟩

/-- C8: every structurally unsupported provider operation, called directly
with any input, returns a well-formed failure result — `success == false`,
a descriptive error string, the provider's own display name — without
throwing and without issuing a network request. -/
theorem C8_unsupported_operations_safe (symbol : String) (periods : List String) (now : Nat) :
    ((polygonGetHoldings symbol now).response.success = false ∧
      (polygonGetHoldings symbol now).response.provider = "Polygon.io" ∧
      (polygonGetHoldings symbol now).response.error =
        some "Holdings data not available in Polygon.io" ∧
      (polygonGetHoldings symbol now).netCalls = 0) ∧
    ((polygonGetSectorAllocation symbol now).response.success = false ∧
      (polygonGetSectorAllocation symbol now).response.provider = "Polygon.io" ∧
      (polygonGetSectorAllocation symbol now).response.error =
        some "Sector allocation data not available in Polygon.io" ∧
      (polygonGetSectorAllocation symbol now).netCalls = 0) ∧
    ((polygonGetCountryAllocation symbol now).response.success = false ∧
      (polygonGetCountryAllocation symbol now).response.provider = "Polygon.io" ∧
      (polygonGetCountryAllocation symbol now).response.error =
        some "Country allocation data not available in Polygon.io" ∧
      (polygonGetCountryAllocation symbol now).netCalls = 0) ∧
    ((polygonGetPerformance symbol periods now).response.success = false ∧
      (polygonGetPerformance symbol periods now).response.provider = "Polygon.io" ∧
      (polygonGetPerformance symbol periods now).response.error =
        some "Performance data calculation not implemented for Polygon.io" ∧
      (polygonGetPerformance symbol periods now).netCalls = 0) ∧
    ((eodhdGetPerformance symbol periods now).response.success = false ∧
      (eodhdGetPerformance symbol periods now).response.provider = "EODHD" ∧
      (eodhdGetPerformance symbol periods now).response.error =
        some "Performance data calculation not implemented for EODHD" ∧
      (eodhdGetPerformance symbol periods now).netCalls = 0) ∧
    ((finnhubGetPerformance symbol periods now).response.success = false ∧
      (finnhubGetPerformance symbol periods now).response.provider = "Finnhub" ∧
      (finnhubGetPerformance symbol periods now).response.error =
        some "Performance data calculation not implemented for Finnhub" ∧
      (finnhubGetPerformance symbol periods now).netCalls = 0) ∧
    ((fmpGetPerformance symbol periods now).response.success = false ∧
      (fmpGetPerformance symbol periods now).response.provider = "Financial Modeling Prep" ∧
      (fmpGetPerformance symbol periods now).response.error =
        some "Performance data calculation not implemented for FMP" ∧
      (fmpGetPerformance symbol periods now).netCalls = 0) ∧
    ((avGetHoldings symbol now).response.success = false ∧
      (avGetHoldings symbol now).response.provider = "Alpha Vantage" ∧
      (avGetHoldings symbol now).response.error =
        some "Holdings data not available in Alpha Vantage" ∧
      (avGetHoldings symbol now).netCalls = 0) ∧
    ((avGetSectorAllocation symbol now).response.success = false ∧
      (avGetSectorAllocation symbol now).response.provider = "Alpha Vantage" ∧
      (avGetSectorAllocation symbol now).response.error =
        some "Sector allocation data not available in Alpha Vantage" ∧
      (avGetSectorAllocation symbol now).netCalls = 0) ∧
    ((avGetCountryAllocation symbol now).response.success = false ∧
      (avGetCountryAllocation symbol now).response.provider = "Alpha Vantage" ∧
      (avGetCountryAllocation symbol now).response.error =
        some "Country allocation data not available in Alpha Vantage" ∧
      (avGetCountryAllocation symbol now).netCalls = 0) ∧
    ((avGetPerformance symbol periods now).response.success = false ∧
      (avGetPerformance symbol periods now).response.provider = "Alpha Vantage" ∧
      (avGetPerformance symbol periods now).response.error =
        some "Performance data calculation not implemented for Alpha Vantage" ∧
      (avGetPerformance symbol periods now).netCalls = 0) :=
  ⟨⟨rfl, rfl, rfl, rfl⟩, ⟨rfl, rfl, rfl, rfl⟩, ⟨rfl, rfl, rfl, rfl⟩, ⟨rfl, rfl, rfl, rfl⟩,
    ⟨rfl, rfl, rfl, rfl⟩, ⟨rfl, rfl, rfl, rfl⟩, ⟨rfl, rfl, rfl, rfl⟩, ⟨rfl, rfl, rfl, rfl⟩,
    ⟨rfl, rfl, rfl, rfl⟩, ⟨rfl, rfl, rfl, rfl⟩, ⟨rfl, rfl, rfl, rfl⟩⟩

/-- C9: the priority list always contains only registered providers — after
construction it is the fixed default order filtered to the registry, and
`setProviderPriority` replaces it wholesale with the given names filtered to
the registry, preserving their order; no other operation (fallback runs,
`healthCheck`) changes the list, and `setProviderPriority` touches nothing
else. -/
theorem C9_priority_list_invariant :
    (∀ (c : ProviderCredentials),
      (mkFactory c).providerPriority =
        defaultPriorityOrder.filter (mkFactory c).providers) ∧
    (∀ (c : ProviderCredentials) (p : ProviderName),
      p ∈ (mkFactory c).providerPriority → (mkFactory c).providers p = true) ∧
    (∀ (st : FactoryState) (l : List ProviderName),
      (setProviderPriority st l).providerPriority = l.filter st.providers) ∧
    (∀ (st : FactoryState) (l : List ProviderName) (p : ProviderName),
      p ∈ (setProviderPriority st l).providerPriority → st.providers p = true) ∧
    (∀ (st : FactoryState) (l : List ProviderName),
      List.Sublist (setProviderPriority st l).providerPriority l) ∧
    (∀ (st : FactoryState) (l : List ProviderName),
      (setProviderPriority st l).providers = st.providers ∧
      (setProviderPriority st l).healthStatus = st.healthStatus) ∧
    (∀ (α : Type) (st : FactoryState) (cap : Capability)
        (call : ProviderName → CallOutcome α) (now : Nat),
      (executeWithFallback st cap call now).state.providerPriority = st.providerPriority) ∧
    (∀ (st : FactoryState) (cfg : ProviderName → ProviderConfig),
      ((healthCheck st cfg).1).providerPriority = st.providerPriority) := by
  refine ⟨fun c => rfl, ?_, fun st l => rfl, ?_, ?_, fun st l => ⟨rfl, rfl⟩,
    fun α st cap call now => rfl, fun st cfg => rfl⟩
  · intro c p hp
    exact (List.mem_filter.mp hp).2
  · intro st l p hp
    exact (List.mem_filter.mp hp).2
  · intro st l
    exact List.filter_sublist l

/-- Witness state for C9: three providers registered. -/
def c9State : FactoryState :=
  mkFactory
    { polygon := some "pk", finnhub := some "fk", eodhd := some "ek", fmp := none
      alphaVantage := none }

/-- Witness for C9: a name surviving `setProviderPriority`'s filter is
registered. -/
theorem C9_priority_list_invariant_witness :
    c9State.providers ProviderName.finnhub = true :=
  C9_priority_list_invariant.2.2.2.1 c9State
    [ProviderName.finnhub, ProviderName.polygon] ProviderName.finnhub (by decide)

/-- C10: `healthCheck` unconditionally marks every registered provider
healthy (the check merely tests the truthiness of the always-present
`config` object) for every prior health state, leaves unregistered entries
untouched, and returns the map sending every registered name to `true`;
the embedded `healthCheck` consults no provider method and no network
oracle. -/
theorem C10_healthCheck_marks_registered_healthy (st : FactoryState)
    (cfg : ProviderName → ProviderConfig) :
    (∀ p, st.providers p = true → ((healthCheck st cfg).1).healthStatus p = true) ∧
    (∀ p, st.providers p = false →
      ((healthCheck st cfg).1).healthStatus p = st.healthStatus p) ∧
    (healthCheck st cfg).2 =
      (registrationOrder.filter st.providers).map (fun p => (p, true)) ∧
    (∀ pr ∈ (healthCheck st cfg).2, pr.2 = true ∧ st.providers pr.1 = true) := by
  have h3 : (healthCheck st cfg).2 =
      (registrationOrder.filter st.providers).map (fun p => (p, true)) := by
    simp [healthCheck, configTruthy]
  refine ⟨?_, ?_, h3, ?_⟩
  · intro p hp
    simp [healthCheck, configTruthy, hp]
  · intro p hp
    simp [healthCheck, hp]
  · intro pr hpr
    rw [h3] at hpr
    obtain ⟨q, hq, hpr2⟩ := List.mem_map.mp hpr
    cases hpr2
    exact ⟨rfl, (List.mem_filter.mp hq).2⟩

/-- Witness state for C10: EODHD registered but currently unhealthy. -/
def c10State : FactoryState :=
  { providers := fun p => decide (p = ProviderName.eodhd)
    providerPriority := [ProviderName.eodhd]
    healthStatus := fun _ => false }

/-- Witness for C10: `healthCheck` flips the unhealthy registered provider
back to healthy. -/
theorem C10_healthCheck_marks_registered_healthy_witness :
    ((healthCheck c10State (providerConfig "k")).1).healthStatus ProviderName.eodhd = true :=
  (C10_healthCheck_marks_registered_healthy c10State (providerConfig "k")).1
    ProviderName.eodhd (by decide)

end ETFDash
